import Mathlib

/-!
Verification of the dutchie-cannabis-extraction repository.

Shallow embedding of the two cores of the repository:

* the analysis engine (`src/analysis/competitive_intelligence.py`,
  class `CompetitiveAnalyzer`): pricing-tier assignment from the run's own
  quartiles and the 0-100 competitive strength score;
* the extraction side (`src/extractors/dutchie_extractor_optimized.py` and
  `src/extractors/dutchie_extractor.py`): the per-entry text parser, the
  THC/price filters, the infinite-scroll loop, the age-gate handler and the
  orchestrator `extract_dispensary` with its cleanup/propagation behaviour.

Modelling conventions:

* Python floats are modelled as `ℚ` (every number the claims touch is decimal).
* A product dictionary is modelled by `Row`.  A field of type `Option _`
  is `none` exactly when the corresponding value is missing.  For the
  optimized extractor the `thc_numeric` KEY is always present in the dict
  (with value `None` when the pattern did not match, lines 180-181), while
  the `price` KEY is absent altogether when no price matched (lines 189-192);
  `Row` keeps both as `Option`, and the places where the Python code performs
  `dict.get(key, default)` are translated according to which of the two
  situations can arise for records produced by the extractor.
* A pandas `DataFrame` built from a list of such dicts has a given column
  exactly when at least one dict carries the key; accessing a missing column
  raises `KeyError`.  Fallible operations return `Except String _`.
* Instants are abstract `ℕ` ticks.
-/

set_option maxRecDepth 100000

attribute [local semireducible] Rat.add Rat.mul Rat.inv Rat.sub

namespace Dutchie

/-- A product record, the dict shape produced by
`DutchieExtractorOptimized._extract_product_data` (plus the `category` tag the
orchestrator assigns).  Fields of the dict that no claim touches
(`cbd_percent`, `strain_type`, `size_weight`, `product_url`, `stock_status`,
timestamps) are not modelled. -/
structure Row where
  product_name : String := ""
  brand : Option String := none
  thc_percent : Option String := none
  thc_numeric : Option ℚ := none
  price : Option ℚ := none
  price_raw : Option String := none
  category : String := ""
deriving DecidableEq

/-- Linear interpolation at fractional position `h` into the sorted list `s`;
this is the `interpolation='linear'` rule of `pandas.Series.quantile`:
`x[i] + (h - i) * (x[i+1] - x[i])` with `i = floor h`. -/
def interpAt (s : List ℚ) (h : ℚ) : ℚ :=
  let i : ℕ := (⌊h⌋).toNat
  let g : ℚ := h - (i : ℚ)
  let xi := s.getD i 0
  let xi1 := s.getD (i + 1) xi
  xi + g * (xi1 - xi)

/-- Value of `series.quantile(q)` over the present (non-NaN) values `xs`,
pandas default linear interpolation: position `(n - 1) * q` into the sorted
values. -/
def quantile (xs : List ℚ) (q : ℚ) : ℚ :=
  interpAt (xs.insertionSort (· ≤ ·)) (((xs.length - 1 : ℕ) : ℚ) * q)

/-- Present price values of the record set (the non-NaN entries of the
`price_numeric` column). -/
def pricesOf (rows : List Row) : List ℚ :=
  rows.filterMap (fun r => r.price)

/-- The run's 25th price percentile (`price_quartiles[0.25]`). -/
def priceQ1 (rows : List Row) : ℚ :=
  quantile (pricesOf rows) (1 / 4)

/-- The run's 75th price percentile (`price_quartiles[0.75]`). -/
def priceQ3 (rows : List Row) : ℚ :=
  quantile (pricesOf rows) (3 / 4)

/-- One application of `categorize_price` inside
`CompetitiveAnalyzer._categorize_pricing_tiers`: `NaN ↦ Unclassified`,
`p ≤ Q1 ↦ Value`, `p ≤ Q3 ↦ Mid-Tier`, otherwise `Premium`. -/
def assignTier (q1 q3 : ℚ) (p : Option ℚ) : String :=
  match p with
  | none => "Unclassified"
  | some v => if v ≤ q1 then "Value" else if v ≤ q3 then "Mid-Tier" else "Premium"

/-- The `pricing_tier` column produced by
`CompetitiveAnalyzer._categorize_pricing_tiers`.  The method returns without
creating the column when `price_numeric` is not among the columns, which for
this record shape happens exactly when no record carries a price (for the
empty frame `_prepare_data` returns even earlier); `none` models the absent
column. -/
def pricingTiers (rows : List Row) : Option (List String) :=
  if rows.any (fun r => r.price.isSome) then
    some (rows.map (fun r => assignTier (priceQ1 rows) (priceQ3 rows) r.price))
  else
    none

/-- The `pricing_tier` column with the absent column read as the empty list
(used to state hypotheses decidably). -/
def tiersOf (rows : List Row) : List String :=
  (pricingTiers rows).getD []

/-- Number of distinct values of a column, `Series.nunique()` over the
present values. -/
def distinctCount (xs : List String) : ℕ :=
  xs.dedup.length

/-- Product-variety component of `_calculate_strength_score`
(30 points max). -/
def productPoints (rows : List Row) : ℕ :=
  if 300 < rows.length then 30 else if 150 < rows.length then 20 else 10

/-- Category-coverage component of `_calculate_strength_score`
(25 points max). -/
def categoryPoints (rows : List Row) : ℕ :=
  min (distinctCount (rows.map (fun r => r.category)) * 4) 25

/-- Pricing-balance component of `_calculate_strength_score`: when the
`pricing_tier` column exists, 25 points if every tier value present holds a
normalized share strictly above 0.15, else 15 points; when the column does
not exist the `if` block is skipped and nothing is added. -/
def pricingPoints (rows : List Row) : ℕ :=
  match pricingTiers rows with
  | none => 0
  | some tiers =>
    if tiers.dedup.all (fun t => decide (tiers.length * 15 < tiers.count t * 100)) then 25
    else 15

/-- Brand-diversity component of `_calculate_strength_score` (20 points max);
when the `brand` column is absent nothing is added, which coincides with
`min (0 * 2) 20`. -/
def brandPoints (rows : List Row) : ℕ :=
  min (distinctCount (rows.filterMap (fun r => r.brand)) * 2) 20

/-- The method `CompetitiveAnalyzer._calculate_strength_score`.  On the
analyzer built from an empty product list the DataFrame has no columns at
all, so `self.df['category'].nunique()` raises `KeyError`; otherwise the
result is the component sum capped at 100. -/
def strength_score (rows : List Row) : Except String ℕ :=
  if rows.isEmpty then Except.error "KeyError: category"
  else Except.ok (min (productPoints rows + categoryPoints rows + pricingPoints rows + brandPoints rows) 100)

/-- Modelled from the spec wording of claim C1 (amended): the
pricing-balance component expressed with rational shares, "every pricing
tier present holds a share strictly greater than 15% of the set", plus the
amendment that the component is 0 when no record carries a price. -/
def specPricingComponent (rows : List Row) : ℕ :=
  match pricingTiers rows with
  | none => 0
  | some tiers =>
    if ∀ t ∈ tiers.dedup, (15 : ℚ) / 100 < (tiers.count t : ℚ) / (tiers.length : ℚ) then 25
    else 15

/-- Modelled from the spec wording of claim C1 (amended): additive
four-component score, sum capped at 100. -/
def specStrengthScore (rows : List Row) : ℕ :=
  min ((if 300 < rows.length then 30 else if 150 < rows.length then 20 else 10)
      + min (distinctCount (rows.map (fun r => r.category)) * 4) 25
      + specPricingComponent rows
      + min (distinctCount (rows.filterMap (fun r => r.brand)) * 2) 20) 100

/-- Number of records tagged Value, Mid-Tier or Premium (zero when the
`pricing_tier` column does not exist). -/
def taggedTierCount (rows : List Row) : ℕ :=
  match pricingTiers rows with
  | none => 0
  | some tiers => tiers.countP (fun t => t = "Value" ∨ t = "Mid-Tier" ∨ t = "Premium")

/-- Number of records with a known (present) price. -/
def knownPriceCount (rows : List Row) : ℕ :=
  rows.countP (fun r => r.price.isSome)

/-- A record carrying only a category: no price key, no brand, no THC data. -/
def rowNoPrice : Row := { category := "flower" }

/-! Record extractor: `DutchieExtractorOptimized._extract_product_data`
parses the rendered text of one catalog entry with first-match regular
expressions.  Text is modelled as `List Char`. -/

/-- Splitting a text block on newline characters, `str.split` with
separator `\n` (always at least one piece, as in Python). -/
def splitLinesAux : List Char → List Char → List (List Char)
  | [], acc => [acc.reverse]
  | c :: cs, acc =>
    if c = '\n' then acc.reverse :: splitLinesAux cs [] else splitLinesAux cs (c :: acc)

/-- Text block split into lines. -/
def splitLines (cs : List Char) : List (List Char) :=
  splitLinesAux cs []

/-- Python `str.strip()`: leading and trailing whitespace removed. -/
def stripWs (cs : List Char) : List Char :=
  ((cs.dropWhile Char.isWhitespace).reverse.dropWhile Char.isWhitespace).reverse

/-- Match of the regex piece `\d+\.?\d*` at the start of the input: at least
one digit, then an optional dot taken greedily, then further digits.  Returns
the matched characters and the remaining input; for this piece greedy
matching never needs backtracking, since after the maximal munch any
character handed back would itself sit where the next pattern character is
tested. -/
def matchNumber (cs : List Char) : Option (List Char × List Char) :=
  let d1 := cs.takeWhile Char.isDigit
  let r1 := cs.dropWhile Char.isDigit
  if d1.isEmpty then none
  else
    match r1 with
    | '.' :: r2 => some (d1 ++ '.' :: r2.takeWhile Char.isDigit, r2.dropWhile Char.isDigit)
    | _ => some (d1, r1)

/-- Natural number denoted by a digit string. -/
def natOfDigits (ds : List Char) : ℕ :=
  ds.foldl (fun n c => 10 * n + (c.toNat - 48)) 0

/-- Value of `float(m)` for a matched `\d+\.?\d*` string `m` (Python parses
`"5."` as `5.0`). -/
def numValue (m : List Char) : ℚ :=
  let d1 := m.takeWhile Char.isDigit
  let rest := m.dropWhile Char.isDigit
  let d2 := match rest with
    | '.' :: r => r.takeWhile Char.isDigit
    | _ => []
  (natOfDigits d1 : ℚ) + (natOfDigits d2 : ℚ) / (10 : ℚ) ^ d2.length

/-- First match of `re.search(r'\$(\d+\.?\d*)', text)`: scan left to right
for a dollar sign followed by a number; on failure at one position the scan
resumes at the next.  Returns `group(0)` (with the dollar sign) and the
parsed value of `group(1)`. -/
def priceScan : List Char → Option (List Char × ℚ)
  | [] => none
  | c :: rest =>
    if c = '$' then
      match matchNumber rest with
      | some (m, _) => some ('$' :: m, numValue m)
      | none => priceScan rest
    else priceScan rest

/-- Presence of a `$<digit>` adjacency somewhere in the text, the condition
for `re.search(r'\$(\d+\.?\d*)', text)` to succeed (the tail `\.?\d*` is
optional, so a match exists exactly when some dollar sign is followed by a
digit). -/
def hasDollarNumber : List Char → Bool
  | [] => false
  | c :: rest =>
    if c = '$' then
      (match rest with
       | [] => false
       | c2 :: _ => c2.isDigit) || hasDollarNumber rest
    else hasDollarNumber rest

/-- Case-insensitive match of the literal characters `pat` at the start of
the input (the `re.IGNORECASE` flag); returns the remaining input. -/
def matchLitCI : List Char → List Char → Option (List Char)
  | [], rest => some rest
  | _ :: _, [] => none
  | p :: ps, c :: cs => if p.toLower = c.toLower then matchLitCI ps cs else none

/-- First match of `re.search(r'THC:\s*(\d+\.?\d*)%', text, re.IGNORECASE)`:
scan for `THC:` (case-insensitive), skip whitespace, read a number, require
a percent sign; returns `group(1)`.  `\s` is modelled by
`Char.isWhitespace`. -/
def thcScan : List Char → Option (List Char)
  | [] => none
  | c :: rest =>
    match matchLitCI ['T', 'H', 'C', ':'] (c :: rest) with
    | some r1 =>
      match matchNumber (r1.dropWhile Char.isWhitespace) with
      | some (m, r3) =>
        match r3 with
        | '%' :: _ => some m
        | _ => thcScan rest
      | none => thcScan rest
    | none => thcScan rest

/-- The method `DutchieExtractorOptimized._extract_product_data` restricted
to the modelled fields: name is the first line stripped, brand the second
line when present, the THC pair is set from the first `THC: n%` match (the
keys are always present, value `None` on no match), while the price pair of
keys is only created when a `$n` match exists.  The category tag is assigned
later by the orchestrator. -/
def extractProductData (text : List Char) : Row :=
  { product_name := String.mk (stripWs ((splitLines text).headD []))
    brand := match splitLines text with
      | _ :: b :: _ => some (String.mk (stripWs b))
      | _ => none
    thc_percent := (thcScan text).map (fun m => String.mk (m ++ ['%']))
    thc_numeric := (thcScan text).map numValue
    price := (priceScan text).map (fun pr => pr.2)
    price_raw := (priceScan text).map (fun pr => String.mk pr.1)
    category := "" }

/-! Filters.  `DutchieExtractorOptimized._apply_filters` evaluates
`p.get("thc_numeric", 0) >= min_thc`: for records produced by this extractor
the key is always present, so a missing THC value yields `None` and the
comparison raises `TypeError`; `p.get("price", inf) <= max_price` sees the
key absent when no price was parsed and the infinite default fails the
comparison, so the record is dropped without error. -/

/-- THC filter pass of `DutchieExtractorOptimized._apply_filters`
(list comprehension, evaluated left to right, first `None` raises). -/
def filterByTHC (minT : ℚ) : List Row → Except String (List Row)
  | [] => Except.ok []
  | r :: rs =>
    match r.thc_numeric with
    | none => Except.error "TypeError"
    | some v =>
      match filterByTHC minT rs with
      | Except.error e => Except.error e
      | Except.ok rest => Except.ok (if minT ≤ v then r :: rest else rest)

/-- Price filter pass of `DutchieExtractorOptimized._apply_filters`. -/
def filterByPrice (maxP : ℚ) (rows : List Row) : List Row :=
  rows.filter (fun r =>
    match r.price with
    | some v => decide (v ≤ maxP)
    | none => false)

/-- The method `DutchieExtractorOptimized._apply_filters`.  Each filter is
guarded by Python truthiness (`if min_thc:`), so a filter bound of 0 or an
absent bound skips that pass. -/
def apply_filters (rows : List Row) (minT maxP : Option ℚ) : Except String (List Row) :=
  match (match minT with
         | some t => if t = 0 then Except.ok rows else filterByTHC t rows
         | none => Except.ok rows) with
  | Except.error e => Except.error e
  | Except.ok rows1 =>
    Except.ok (match maxP with
               | some m => if m = 0 then rows1 else filterByPrice m rows1
               | none => rows1)

/-- The record shape of the original `DutchieExtractor`, where THC lives
under `lab_results.thc`; `labThc = none` models the key path being absent
from the dict. -/
structure RowO where
  labThc : Option ℚ := none
  price : Option ℚ := none
deriving DecidableEq

/-- The method `DutchieExtractor._apply_filters`:
`p.get("lab_results", {}).get("thc", 0) >= min_thc` defaults a missing key
path to 0, so this variant is total. -/
def apply_filters_orig (rows : List RowO) (minT maxP : Option ℚ) : List RowO :=
  let rows1 := match minT with
    | some t =>
      if t = 0 then rows
      else rows.filter (fun p => decide (t ≤ p.labThc.getD 0))
    | none => rows
  match maxP with
  | some m =>
    if m = 0 then rows1
    else rows1.filter (fun p =>
      match p.price with
      | some v => decide (v ≤ m)
      | none => false)
  | none => rows1

/-! Scroll loader: the while loop of
`DutchieExtractorOptimized._scroll_and_load_products` (lines 117-147).  An
entry source is abstracted as `obs : ℕ → ℕ`, the product count the t-th
`find_elements` call observes; the loop polls once per iteration, so poll t
happens in iteration t (0-based `scroll_attempts`). -/

/-- One-loop-at-a-time unfolding of the scroll loop.  The fuel starts at 50
with `attempts = 0` and decreases in lockstep with the `attempts` increment,
so fuel exhaustion and the `scroll_attempts < max_scroll_attempts` guard
coincide.  The returned number is how many polls the loop performed: on the
stability break (`current == last` after more than 3 attempts) that is
`attempts + 1`, on the ceiling exit it is `attempts = 50`. -/
def scrollLoopAux (obs : ℕ → ℕ) : ℕ → ℕ → ℕ → ℕ
  | 0, _, attempts => attempts
  | fuel + 1, last, attempts =>
    if attempts < 50 then
      if obs attempts = last ∧ 3 < attempts then attempts + 1
      else scrollLoopAux obs fuel (obs attempts) (attempts + 1)
    else attempts

/-- Number of `find_elements` polls the while loop performs (equals the
number of loop iterations entered). -/
def scrollIterations (obs : ℕ → ℕ) : ℕ :=
  scrollLoopAux obs 50 0 0

/-- Size of the entry list `_scroll_and_load_products` returns: the final
`find_elements` call happens right after the loop, i.e. it is the poll with
the next index. -/
def scroll_and_load_count (obs : ℕ → ℕ) : ℕ :=
  obs (scrollIterations obs)

/-! Age gate: `DutchieExtractorOptimized._handle_age_verification` waits up
to 10 seconds for a clickable button matching the XPath
`//button[contains(text(), 'YES') or contains(text(), 'Yes')]`; a
`TimeoutException` is caught and treated as the no-popup case. -/

/-- Whether `pat` occurs at the start of the text (case-sensitive, the XPath
`contains` is case-sensitive). -/
def beginsWith : List Char → List Char → Bool
  | [], _ => true
  | _ :: _, [] => false
  | p :: ps, c :: cs => p == c && beginsWith ps cs

/-- Whether `pat` occurs contiguously anywhere in the text. -/
def containsSeq (pat : List Char) : List Char → Bool
  | [] => pat.isEmpty
  | c :: cs => beginsWith pat (c :: cs) || containsSeq pat cs

/-- The XPath predicate of the age-gate wait: the button text contains the
substring `YES` or the substring `Yes`. -/
def buttonMatch (s : String) : Bool :=
  containsSeq "YES".toList s.toList || containsSeq "Yes".toList s.toList

/-- The bounded wait of the age-gate handshake, `WebDriverWait(driver, 10)`. -/
def ageGateTimeout : ℕ := 10

/-- The method `_handle_age_verification` over the buttons that become
clickable within the wait: the first matching one is clicked (`some` its
text); `none` models the caught `TimeoutException`, after which the method
returns normally. -/
def handleAgeVerification (buttons : List String) : Option String :=
  buttons.find? buttonMatch

/-! Orchestrator: `DutchieExtractorOptimized.extract_dispensary`
(lines 223-308).  The browser work is abstracted by two oracles: `setup`
(the `_setup_driver()` call, made before the `try` block) and `fetch`,
which for one category yields the per-entry extraction outcomes
(`some row` for a successful `_extract_product_data`, `none` for a failed
one) or a raised exception. -/

/-- A Python exception value: its class name and message. -/
structure PyError where
  ty : String
  msg : String
deriving DecidableEq

/-- The `self.stats` dictionary of the extractor. -/
structure Stats where
  total_products : ℕ
  successful_extractions : ℕ
  failed_extractions : ℕ
  categories_processed : ℕ
  start_time : Option ℕ
  end_time : Option ℕ
deriving DecidableEq

/-- Stats right after `extract_dispensary` records the start instant. -/
def initStats (t0 : ℕ) : Stats :=
  { total_products := 0, successful_extractions := 0, failed_extractions := 0
    categories_processed := 0, start_time := some t0, end_time := none }

/-- The default category set `self.categories`. -/
def defaultCategories : List String :=
  ["flower", "pre-rolls", "vaporizers", "edibles", "concentrates", "tinctures"]

/-- Python truthiness of an optional float, the `if min_thc or max_price:`
guard. -/
def truthy : Option ℚ → Bool
  | none => false
  | some x => decide (x ≠ 0)

/-- The `for category in categories` body of `extract_dispensary`: returns
the exception that escaped the loop (if any), the accumulated product list
at that moment, and the stats.  A failed fetch escapes before the
per-category counters move; a `TypeError` out of `_apply_filters` escapes
after the extraction counters moved but before `categories_processed`
does. -/
def runCats (fetch : String → Except PyError (List (Option Row))) (minT maxP : Option ℚ) :
    List String → List Row → Stats → Option PyError × List Row × Stats
  | [], acc, st => (none, acc, st)
  | c :: cs, acc, st =>
    match fetch c with
    | Except.error e => (some e, acc, st)
    | Except.ok entries =>
      let tagged := entries.filterMap (fun o => o.map (fun r => { r with category := c }))
      let st1 := { st with
        successful_extractions := st.successful_extractions + entries.countP (fun o => o.isSome)
        failed_extractions := st.failed_extractions + entries.countP (fun o => o.isNone) }
      match (if truthy minT || truthy maxP then apply_filters tagged minT maxP else Except.ok tagged) with
      | Except.error m => (some { ty := "TypeError", msg := m }, acc, st1)
      | Except.ok filtered =>
        runCats fetch minT maxP cs (acc ++ filtered)
          { st1 with categories_processed := st1.categories_processed + 1 }

/-- Decidable equality of exception-or-value results. -/
instance exceptDecEq {α β : Type} [DecidableEq α] [DecidableEq β] : DecidableEq (Except α β) := fun x y =>
  match x, y with
  | Except.error a, Except.error b =>
    if h : a = b then isTrue (by rw [h]) else isFalse (by intro hc; injection hc; contradiction)
  | Except.error _, Except.ok _ => isFalse (by intro hc; injection hc)
  | Except.ok _, Except.error _ => isFalse (by intro hc; injection hc)
  | Except.ok a, Except.ok b =>
    if h : a = b then isTrue (by rw [h]) else isFalse (by intro hc; injection hc; contradiction)

/-- Outcome of one `extract_dispensary` call: the returned list or the
exception that propagated, the final stats object, and whether
`driver.quit()` ran. -/
structure RunOutcome where
  result : Except PyError (List Row)
  stats : Stats
  driverQuit : Bool
deriving DecidableEq

/-- The method `DutchieExtractorOptimized.extract_dispensary`.
`_setup_driver()` is called before the `try`, so a setup failure propagates
without touching the `finally` block; inside the `try`, any exception is
logged and re-raised unchanged (`raise`), and the `finally` block always
quits the driver and finalizes `end_time` and `total_products` from the
products accumulated so far. -/
def extract_dispensary (setup : Except PyError Unit)
    (fetch : String → Except PyError (List (Option Row)))
    (cats : Option (List String)) (minT maxP : Option ℚ) (t0 t1 : ℕ) : RunOutcome :=
  let st0 := initStats t0
  match setup with
  | Except.error e => { result := Except.error e, stats := st0, driverQuit := false }
  | Except.ok _ =>
    match runCats fetch minT maxP (cats.getD defaultCategories) [] st0 with
    | (errOpt, acc, st) =>
      let stF := { st with end_time := some t1, total_products := acc.length }
      match errOpt with
      | some e => { result := Except.error e, stats := stF, driverQuit := true }
      | none => { result := Except.ok acc, stats := stF, driverQuit := true }

/-! Concrete fixtures used to instantiate the theorems below. -/

/-- Twenty-five distinct brand labels. -/
def brandNames : List String :=
  ["b0", "b1", "b2", "b3", "b4", "b5", "b6", "b7", "b8", "b9", "b10", "b11", "b12",
   "b13", "b14", "b15", "b16", "b17", "b18", "b19", "b20", "b21", "b22", "b23", "b24"]

/-- The i-th record of the 400-product scenario: categories cycle through the
six defaults, brands through twenty-five labels, every price is 20. -/
def mkRow400 (i : ℕ) : Row :=
  { category := defaultCategories.getD (i % 6) "flower"
    brand := some (brandNames.getD (i % 25) "b0")
    price := some 20 }

/-- A record set of 400 products over 6 categories and 25 brands with all
prices present and a single pricing tier holding a 100% share. -/
def w400 : List Row := (List.range 400).map mkRow400

/-- A record whose THC reads 19.9. -/
def rowThc199 : Row := { thc_numeric := some (199 / 10), category := "flower" }

/-- A record whose THC reads exactly 20.0. -/
def rowThc20 : Row := { thc_numeric := some 20, category := "flower" }

/-- A record priced exactly 50.0 (THC present so the THC pass cannot raise). -/
def rowPrice50 : Row := { thc_numeric := some 25, price := some 50, category := "flower" }

/-- A three-record set with prices 10 and 20 plus one priceless record; its
quartiles are Q1 = 12.5 and Q3 = 17.5. -/
def rowsQuartile : List Row :=
  [{ category := "flower", price := some 10 },
   { category := "edibles", price := some 20 },
   rowNoPrice]

/-- A session-open failure, the exception `webdriver.Chrome` raises. -/
def setupFailErr : PyError := { ty := "WebDriverException", msg := "session not created" }

/-- An original-extractor record whose `lab_results.thc` key path is
absent. -/
def rowONoThc : RowO := { labThc := none, price := some 10 }

/-- A category oracle that succeeds on the flower category with one parsed
record and one failed entry, and times out on every other category. -/
def fetchW : String → Except PyError (List (Option Row)) := fun c =>
  if c = "flower" then Except.ok [some { price := some 30 }, none]
  else Except.error { ty := "TimeoutException", msg := "page timeout" }

/-! ### Helper lemmas about the quantile interpolation -/

theorem getD_eq_get_of_lt (s : List ℚ) (d : ℚ) (a : ℕ) (h : a < s.length) :
    s.getD a d = s.get ⟨a, h⟩ := by
  simp [List.getD_eq_getElem?_getD, List.getElem?_eq_getElem h, List.get_eq_getElem]

theorem getD_eq_default_of_le (s : List ℚ) (d : ℚ) (a : ℕ) (h : s.length ≤ a) :
    s.getD a d = d := by
  simp [List.getD_eq_getElem?_getD, List.getElem?_eq_none h]

theorem sorted_getD_mono (s : List ℚ) (hs : s.Sorted (· ≤ ·)) {a b : ℕ}
    (hab : a ≤ b) (hb : b < s.length) (d1 d2 : ℚ) :
    s.getD a d1 ≤ s.getD b d2 := by
  have ha : a < s.length := lt_of_le_of_lt hab hb
  rw [getD_eq_get_of_lt s d1 a ha, getD_eq_get_of_lt s d2 b hb]
  exact hs.rel_get_of_le hab

theorem interpAt_mono (s : List ℚ) (hs : s.Sorted (· ≤ ·)) {h h' : ℚ}
    (h0 : 0 ≤ h) (hle : h ≤ h') (hub : h' ≤ (s.length : ℚ) - 1) :
    interpAt s h ≤ interpAt s h' := by
  have h0' : 0 ≤ h' := le_trans h0 hle
  have hfi0 : 0 ≤ ⌊h⌋ := Int.floor_nonneg.mpr h0
  have hfj0 : 0 ≤ ⌊h'⌋ := Int.floor_nonneg.mpr h0'
  have hiQ : (((⌊h⌋).toNat : ℕ) : ℚ) = ((⌊h⌋ : ℤ) : ℚ) := by
    exact_mod_cast congrArg (fun z => ((z : ℤ) : ℚ)) (Int.toNat_of_nonneg hfi0)
  have hjQ : (((⌊h'⌋).toNat : ℕ) : ℚ) = ((⌊h'⌋ : ℤ) : ℚ) := by
    exact_mod_cast congrArg (fun z => ((z : ℤ) : ℚ)) (Int.toNat_of_nonneg hfj0)
  simp only [interpAt]
  set n := s.length with hndef
  set i := (⌊h⌋).toNat with hidef
  set j := (⌊h'⌋).toNat with hjdef
  have hile : (i : ℚ) ≤ h := by rw [hiQ]; exact Int.floor_le h
  have hjle : (j : ℚ) ≤ h' := by rw [hjQ]; exact Int.floor_le h'
  have hgi0 : 0 ≤ h - (i : ℚ) := by linarith
  have hgj0 : 0 ≤ h' - (j : ℚ) := by linarith
  have hgi1 : h - (i : ℚ) < 1 := by
    have hfl := Int.lt_floor_add_one h
    have : h < (i : ℚ) + 1 := by rw [hiQ]; exact_mod_cast hfl
    linarith
  have hij : i ≤ j := Int.toNat_le_toNat (Int.floor_mono hle)
  have hjn : j < n := by
    have h1 : (j : ℚ) ≤ (n : ℚ) - 1 := le_trans hjle hub
    have h2 : (j : ℚ) < (n : ℚ) := by linarith
    exact_mod_cast h2
  have hxj1 : s.getD j 0 ≤ s.getD (j + 1) (s.getD j 0) := by
    by_cases hj1 : j + 1 < n
    · exact sorted_getD_mono s hs (Nat.le_succ j) hj1 0 (s.getD j 0)
    · rw [getD_eq_default_of_le s (s.getD j 0) (j + 1) (by omega)]
  rcases eq_or_lt_of_le hij with heq | hlt
  · rw [← heq] at hxj1 ⊢
    exact add_le_add_left
      (mul_le_mul_of_nonneg_right (by linarith) (by linarith [hxj1])) (s.getD i 0)
  · have hi1n : i + 1 ≤ j := Nat.succ_le_of_lt hlt
    have hi1 : i + 1 < n := lt_of_le_of_lt hi1n hjn
    calc s.getD i 0 + (h - (i : ℚ)) * (s.getD (i + 1) (s.getD i 0) - s.getD i 0)
        ≤ s.getD i 0 + 1 * (s.getD (i + 1) (s.getD i 0) - s.getD i 0) := by
          have hxi1 : s.getD i 0 ≤ s.getD (i + 1) (s.getD i 0) :=
            sorted_getD_mono s hs (Nat.le_succ i) hi1 0 (s.getD i 0)
          exact add_le_add_left
            (mul_le_mul_of_nonneg_right (le_of_lt hgi1) (by linarith)) (s.getD i 0)
      _ = s.getD (i + 1) (s.getD i 0) := by ring
      _ ≤ s.getD j 0 := sorted_getD_mono s hs hi1n hjn (s.getD i 0) 0
      _ ≤ s.getD j 0 + (h' - (j : ℚ)) * (s.getD (j + 1) (s.getD j 0) - s.getD j 0) :=
          le_add_of_nonneg_right (mul_nonneg hgj0 (by linarith))

theorem quantile_mono_q (xs : List ℚ) (hxs : xs ≠ []) {q q' : ℚ}
    (hq0 : 0 ≤ q) (hqq : q ≤ q') (hq1 : q' ≤ 1) :
    quantile xs q ≤ quantile xs q' := by
  have hlen : (xs.insertionSort (· ≤ ·)).length = xs.length := List.length_insertionSort _ _
  have hpos : 1 ≤ xs.length := List.length_pos.mpr hxs
  have hcast : (((xs.length - 1 : ℕ) : ℚ)) = (xs.length : ℚ) - 1 := by
    push_cast [Nat.cast_sub hpos]
    ring
  apply interpAt_mono
  · exact List.sorted_insertionSort _ _
  · exact mul_nonneg (Nat.cast_nonneg _) hq0
  · exact mul_le_mul_of_nonneg_left hqq (Nat.cast_nonneg _)
  · rw [hlen, ← hcast]
    calc ((xs.length - 1 : ℕ) : ℚ) * q' ≤ ((xs.length - 1 : ℕ) : ℚ) * 1 :=
          mul_le_mul_of_nonneg_left hq1 (Nat.cast_nonneg _)
      _ = ((xs.length - 1 : ℕ) : ℚ) := by ring

theorem quantile_q1_le_q3 (xs : List ℚ) (hxs : xs ≠ []) :
    quantile xs (1 / 4) ≤ quantile xs (3 / 4) :=
  quantile_mono_q xs hxs (by norm_num) (by norm_num) (by norm_num)

/-! ### Helper lemmas about tier assignment -/

theorem priceQ1_le_priceQ3 (rows : List Row) (h : ∃ r ∈ rows, r.price.isSome) :
    priceQ1 rows ≤ priceQ3 rows := by
  obtain ⟨r, hr, hp⟩ := h
  obtain ⟨v, hv⟩ := Option.isSome_iff_exists.mp hp
  have hmem : v ∈ pricesOf rows := List.mem_filterMap.mpr ⟨r, hr, hv⟩
  exact quantile_q1_le_q3 _ (List.ne_nil_of_mem hmem)

theorem assignTier_value_iff (q1 q3 p : ℚ) :
    (assignTier q1 q3 (some p) = "Value") ↔ p ≤ q1 := by
  simp only [assignTier]
  split_ifs with h1 h2
  · exact iff_of_true rfl h1
  · exact iff_of_false (by decide) h1
  · exact iff_of_false (by decide) h1

theorem assignTier_mid_iff (q1 q3 p : ℚ) :
    (assignTier q1 q3 (some p) = "Mid-Tier") ↔ q1 < p ∧ p ≤ q3 := by
  simp only [assignTier]
  split_ifs with h1 h2
  · exact iff_of_false (by decide) (fun hc => absurd h1 (not_le.mpr hc.1))
  · exact iff_of_true rfl ⟨not_le.mp h1, h2⟩
  · exact iff_of_false (by decide) (fun hc => h2 hc.2)

theorem assignTier_premium_iff (q1 q3 p : ℚ) (hq : q1 ≤ q3) :
    (assignTier q1 q3 (some p) = "Premium") ↔ q3 < p := by
  simp only [assignTier]
  split_ifs with h1 h2
  · exact iff_of_false (by decide) (not_lt.mpr (le_trans h1 hq))
  · exact iff_of_false (by decide) (not_lt.mpr h2)
  · exact iff_of_true rfl (not_le.mp h2)

theorem tier_count_eq (rows : List Row) : taggedTierCount rows = knownPriceCount rows := by
  unfold taggedTierCount knownPriceCount pricingTiers
  by_cases hany : rows.any (fun r => r.price.isSome)
  · rw [if_pos hany]
    show List.countP (fun t => decide (t = "Value" ∨ t = "Mid-Tier" ∨ t = "Premium"))
        (List.map (fun r => assignTier (priceQ1 rows) (priceQ3 rows) r.price) rows)
      = List.countP (fun r => r.price.isSome) rows
    rw [List.countP_map]
    apply List.countP_congr
    intro r _
    cases hp : r.price with
    | none => simp [Function.comp, assignTier, hp]
    | some v =>
      simp only [Function.comp, assignTier, hp, Option.isSome_some]
      split_ifs <;> simp
  · rw [if_neg hany]
    have hall : ∀ r ∈ rows, r.price.isSome = false := by
      simpa [List.any_eq_true] using hany
    symm
    rw [List.countP_eq_zero]
    intro r hr
    simp [hall r hr]

/-! ### Helper lemmas about the strength score -/

theorem shareAll_iff (tiers : List String) (hpos : 0 < tiers.length) :
    (tiers.dedup.all (fun t => decide (tiers.length * 15 < tiers.count t * 100)) = true)
    ↔ (∀ t ∈ tiers.dedup, (15 : ℚ) / 100 < (tiers.count t : ℚ) / (tiers.length : ℚ)) := by
  rw [List.all_eq_true]
  apply forall_congr'
  intro t
  apply imp_congr_right
  intro _
  rw [decide_eq_true_iff]
  rw [div_lt_div_iff₀ (by norm_num) (by exact_mod_cast hpos)]
  constructor
  · intro hn
    have : ((tiers.length * 15 : ℕ) : ℚ) < ((tiers.count t * 100 : ℕ) : ℚ) := by exact_mod_cast hn
    push_cast at this
    linarith
  · intro hq
    have : ((tiers.length * 15 : ℕ) : ℚ) < ((tiers.count t * 100 : ℕ) : ℚ) := by
      push_cast
      linarith
    exact_mod_cast this

theorem pricingPoints_some (rows : List Row) (tiers : List String)
    (hpt : pricingTiers rows = some tiers) :
    pricingPoints rows
      = if tiers.dedup.all (fun t => decide (tiers.length * 15 < tiers.count t * 100)) then 25
        else 15 := by
  unfold pricingPoints
  rw [hpt]

theorem specPricingComponent_some (rows : List Row) (tiers : List String)
    (hpt : pricingTiers rows = some tiers) :
    specPricingComponent rows
      = if ∀ t ∈ tiers.dedup, (15 : ℚ) / 100 < (tiers.count t : ℚ) / (tiers.length : ℚ) then 25
        else 15 := by
  unfold specPricingComponent
  rw [hpt]

theorem pricingTiers_length (rows : List Row) (tiers : List String)
    (hpt : pricingTiers rows = some tiers) : tiers.length = rows.length := by
  unfold pricingTiers at hpt
  by_cases hany : rows.any (fun r => r.price.isSome)
  · rw [if_pos hany] at hpt
    injection hpt with h1
    rw [← h1, List.length_map]
  · rw [if_neg hany] at hpt
    exact absurd hpt (by simp)

theorem pricingPoints_eq_spec (rows : List Row) (hne : rows ≠ []) :
    pricingPoints rows = specPricingComponent rows := by
  cases hpt : pricingTiers rows with
  | none =>
    unfold pricingPoints specPricingComponent
    rw [hpt]
  | some tiers =>
    rw [pricingPoints_some rows tiers hpt, specPricingComponent_some rows tiers hpt]
    have hpos : 0 < tiers.length := by
      rw [pricingTiers_length rows tiers hpt]
      exact List.length_pos.mpr hne
    by_cases hc : ∀ t ∈ tiers.dedup, (15 : ℚ) / 100 < (tiers.count t : ℚ) / (tiers.length : ℚ)
    · rw [if_pos ((shareAll_iff tiers hpos).mpr hc), if_pos hc]
    · rw [if_neg (fun hb => hc ((shareAll_iff tiers hpos).mp hb)), if_neg hc]

/-! ### Claim theorems -/

/-- C1 (amended): the strength score is the capped sum of the four
components, where the pricing-balance component is 25 when every pricing
tier present holds a share strictly above 15% of the set, 15 when some tier
does not, and 0 when no record carries a price (the tier column is then
never created); in particular every record set of 400 products over 6
distinct categories with all prices present, every tier share above 15% and
25 distinct brands scores 99. -/
theorem c1_strength_score :
    (∀ rows : List Row, rows ≠ [] →
      strength_score rows = Except.ok (specStrengthScore rows))
    ∧ (∀ rows : List Row,
        rows.length = 400 →
        distinctCount (rows.map (fun r => r.category)) = 6 →
        (∀ r ∈ rows, r.price.isSome) →
        (∀ t ∈ (tiersOf rows).dedup,
          (15 : ℚ) / 100 < ((tiersOf rows).count t : ℚ) / ((tiersOf rows).length : ℚ)) →
        distinctCount (rows.filterMap (fun r => r.brand)) = 25 →
        strength_score rows = Except.ok 99) := by
  constructor
  · intro rows hne
    unfold strength_score
    rw [if_neg (by simpa [List.isEmpty_iff] using hne)]
    unfold specStrengthScore
    rw [← pricingPoints_eq_spec rows hne]
    rfl
  · intro rows hlen hcat hprice hshare hbrand
    have hne : rows ≠ [] := by
      intro h
      rw [h] at hlen
      simp at hlen
    obtain ⟨r0, hr0⟩ := List.exists_mem_of_ne_nil rows hne
    have hany : rows.any (fun r => r.price.isSome) = true :=
      List.any_eq_true.mpr ⟨r0, hr0, hprice r0 hr0⟩
    have hpt : pricingTiers rows
        = some (rows.map (fun r => assignTier (priceQ1 rows) (priceQ3 rows) r.price)) := by
      unfold pricingTiers
      rw [if_pos hany]
    have htiers : tiersOf rows
        = rows.map (fun r => assignTier (priceQ1 rows) (priceQ3 rows) r.price) := by
      unfold tiersOf
      rw [hpt]
      rfl
    have hpp : productPoints rows = 30 := by
      unfold productPoints
      rw [hlen]
      norm_num
    have hcp : categoryPoints rows = 24 := by
      unfold categoryPoints
      rw [hcat]
      decide
    have hbp : brandPoints rows = 20 := by
      unfold brandPoints
      rw [hbrand]
      decide
    have hprp : pricingPoints rows = 25 := by
      rw [pricingPoints_some rows _ hpt]
      rw [htiers] at hshare
      have hpos : 0 < (rows.map (fun r => assignTier (priceQ1 rows) (priceQ3 rows) r.price)).length := by
        rw [List.length_map, hlen]
        norm_num
      rw [if_pos ((shareAll_iff _ hpos).mpr hshare)]
    unfold strength_score
    rw [if_neg (by simpa [List.isEmpty_iff] using hne), hpp, hcp, hprp, hbp]
    decide

/-- C1 witness: the concrete 400-product record set `w400` satisfies every
hypothesis of the scenario and scores 99, and the formula equality applies
to it. -/
theorem c1_witness :
    strength_score w400 = Except.ok (specStrengthScore w400)
    ∧ strength_score w400 = Except.ok 99 :=
  ⟨c1_strength_score.1 w400 (by decide),
   c1_strength_score.2 w400 (by decide) (by decide) (by decide) (by decide) (by decide)⟩

/-- C1 counterexample: on a one-record set whose record carries no price the
code adds no pricing-balance points at all, so the component is 0, not the
claimed 25-or-15, and the score is 14 where the claimed formula gives 29 or
39. -/
theorem c1_counterexample :
    strength_score [rowNoPrice] = Except.ok 14
    ∧ pricingPoints [rowNoPrice] = 0
    ∧ pricingPoints [rowNoPrice] ≠ 15
    ∧ pricingPoints [rowNoPrice] ≠ 25 := by
  decide

/-- C2: contrary to the claim, the analyzer built from the empty product
list does not return a defined strength score: the empty DataFrame has no
`category` column, so `_calculate_strength_score` raises `KeyError`; every
defined score is at most 100. -/
theorem c2_empty_score :
    strength_score [] = Except.error "KeyError: category"
    ∧ ∀ (rows : List Row) (n : ℕ), strength_score rows = Except.ok n → n ≤ 100 := by
  constructor
  · rfl
  · intro rows n h
    unfold strength_score at h
    by_cases he : rows.isEmpty
    · rw [if_pos he] at h
      simp at h
    · rw [if_neg he] at h
      injection h with h1
      rw [← h1]
      exact min_le_right _ 100

/-- C2 witness: a defined score at a concrete nonempty input, bounded by
100 through the theorem. -/
theorem c2_witness : strength_score [rowNoPrice] = Except.ok 14 ∧ 14 ≤ 100 :=
  ⟨by decide, c2_empty_score.2 [rowNoPrice] 14 (by decide)⟩

/-- C3 (amended): whenever at least one record carries a price, the tier
column is created and each record is tagged by `categorize_price` against
the run's quartiles, with `Value ↔ p ≤ Q1`, `Mid-Tier ↔ Q1 < p ≤ Q3`,
`Premium ↔ Q3 < p`, and missing prices tagged `Unclassified`; and for every
record set the number of records tagged Value, Mid-Tier or Premium equals
the number of records with a known price. -/
theorem c3_pricing_tiers :
    (∀ rows : List Row, (∃ r ∈ rows, r.price.isSome) →
      pricingTiers rows
          = some (rows.map (fun r => assignTier (priceQ1 rows) (priceQ3 rows) r.price))
      ∧ assignTier (priceQ1 rows) (priceQ3 rows) none = "Unclassified"
      ∧ ∀ p : ℚ,
          ((assignTier (priceQ1 rows) (priceQ3 rows) (some p) = "Value") ↔ p ≤ priceQ1 rows)
        ∧ ((assignTier (priceQ1 rows) (priceQ3 rows) (some p) = "Mid-Tier")
            ↔ priceQ1 rows < p ∧ p ≤ priceQ3 rows)
        ∧ ((assignTier (priceQ1 rows) (priceQ3 rows) (some p) = "Premium") ↔ priceQ3 rows < p))
    ∧ ∀ rows : List Row, taggedTierCount rows = knownPriceCount rows := by
  constructor
  · intro rows h
    obtain ⟨r, hr, hp⟩ := h
    refine ⟨?_, rfl, fun p =>
      ⟨assignTier_value_iff _ _ _, assignTier_mid_iff _ _ _,
       assignTier_premium_iff _ _ _ (priceQ1_le_priceQ3 rows ⟨r, hr, hp⟩)⟩⟩
    unfold pricingTiers
    rw [if_pos (List.any_eq_true.mpr ⟨r, hr, hp⟩)]
  · exact tier_count_eq

/-- C3 witness: the three-record fixture with prices 10 and 20 and one
priceless record is fully tagged and its tag count matches its known-price
count. -/
theorem c3_witness :
    pricingTiers rowsQuartile
        = some (rowsQuartile.map
            (fun r => assignTier (priceQ1 rowsQuartile) (priceQ3 rowsQuartile) r.price))
    ∧ taggedTierCount rowsQuartile = knownPriceCount rowsQuartile :=
  ⟨(c3_pricing_tiers.1 rowsQuartile (by decide)).1, c3_pricing_tiers.2 rowsQuartile⟩

/-- C3 counterexample: in a record set where no record carries a price the
tier column is never created, so the priceless record is not tagged
`Unclassified` (it is not tagged at all), contrary to the claim. -/
theorem c3_counterexample : pricingTiers [rowNoPrice] = none := by
  decide

/-! ### Helper lemmas about the scroll loop -/

theorem scrollLoopAux_le (obs : ℕ → ℕ) :
    ∀ (fuel last a : ℕ), a + fuel ≤ 50 → scrollLoopAux obs fuel last a ≤ 50 := by
  intro fuel
  induction fuel with
  | zero =>
    intro last a h
    simp only [scrollLoopAux]
    omega
  | succ n ih =>
    intro last a h
    simp only [scrollLoopAux]
    split_ifs with h1 h2
    · omega
    · exact ih (obs a) (a + 1) (by omega)
    · omega

theorem scrollLoopAux_break (obs : ℕ → ℕ) (A : ℕ) (hA4 : 4 ≤ A) (hA49 : A ≤ 49)
    (hstop : obs A = obs (A - 1))
    (hfirst : ∀ t, 4 ≤ t → t < A → obs t ≠ obs (t - 1)) :
    ∀ d a, a + d = A →
      scrollLoopAux obs (50 - a) (if a = 0 then 0 else obs (a - 1)) a = A + 1 := by
  intro d
  induction d with
  | zero =>
    intro a ha
    have haA : a = A := by omega
    subst haA
    obtain ⟨m, hm⟩ : ∃ m, 50 - a = m + 1 := ⟨50 - a - 1, by omega⟩
    rw [hm]
    simp only [scrollLoopAux]
    rw [if_pos (by omega : a < 50), if_neg (by omega : ¬a = 0),
      if_pos (⟨hstop, by omega⟩ : obs a = obs (a - 1) ∧ 3 < a)]
  | succ n ih =>
    intro a ha
    have haA : a < A := by omega
    obtain ⟨m, hm⟩ : ∃ m, 50 - a = m + 1 := ⟨50 - a - 1, by omega⟩
    rw [hm]
    simp only [scrollLoopAux]
    rw [if_pos (by omega : a < 50)]
    have hnb : ¬(obs a = (if a = 0 then 0 else obs (a - 1)) ∧ 3 < a) := by
      rcases Nat.lt_or_ge a 4 with h4 | h4
      · intro hc
        exact absurd hc.2 (by omega)
      · rw [if_neg (by omega : ¬a = 0)]
        intro hc
        exact hfirst a h4 haA hc.1
    rw [if_neg hnb]
    have hrec := ih (a + 1) (by omega)
    rw [if_neg (by omega : ¬a + 1 = 0)] at hrec
    have hm2 : m = 50 - (a + 1) := by omega
    rw [hm2]
    simpa using hrec

theorem scrollLoopAux_ceiling (obs : ℕ → ℕ)
    (hfirst : ∀ t, 4 ≤ t → t ≤ 49 → obs t ≠ obs (t - 1)) :
    ∀ d a, a + d = 50 →
      scrollLoopAux obs d (if a = 0 then 0 else obs (a - 1)) a = 50 := by
  intro d
  induction d with
  | zero =>
    intro a ha
    have : a = 50 := by omega
    subst this
    rfl
  | succ n ih =>
    intro a ha
    simp only [scrollLoopAux]
    rw [if_pos (by omega : a < 50)]
    have hnb : ¬(obs a = (if a = 0 then 0 else obs (a - 1)) ∧ 3 < a) := by
      rcases Nat.lt_or_ge a 4 with h4 | h4
      · intro hc
        exact absurd hc.2 (by omega)
      · rw [if_neg (by omega : ¬a = 0)]
        intro hc
        exact hfirst a h4 (by omega) hc.1
    rw [if_neg hnb]
    have hrec := ih (a + 1) (by omega)
    rw [if_neg (by omega : ¬a + 1 = 0)] at hrec
    simpa using hrec

/-- C6: the scroll loop always terminates within the 50-iteration ceiling,
and on a source whose entry count strictly grows at every poll it runs
exactly 50 iterations and returns whatever the post-loop poll sees. -/
theorem c6_scroll_ceiling :
    (∀ obs : ℕ → ℕ, scrollIterations obs ≤ 50)
    ∧ (∀ obs : ℕ → ℕ, StrictMono obs →
        scrollIterations obs = 50 ∧ scroll_and_load_count obs = obs 50) := by
  constructor
  · intro obs
    exact scrollLoopAux_le obs 50 0 0 (by omega)
  · intro obs hmono
    have hfirst : ∀ t, 4 ≤ t → t ≤ 49 → obs t ≠ obs (t - 1) := by
      intro t h4 _
      exact ne_of_gt (hmono (by omega : t - 1 < t))
    have h := scrollLoopAux_ceiling obs hfirst 50 0 (by omega)
    rw [if_pos rfl] at h
    have hit : scrollIterations obs = 50 := h
    refine ⟨hit, ?_⟩
    unfold scroll_and_load_count
    rw [hit]

/-- C6 witness: the identity source grows forever; the loop stops at the
ceiling with 50 polls and returns the 50-th observation. -/
theorem c6_witness :
    scrollIterations (fun n => n) = 50 ∧ scroll_and_load_count (fun n => n) = 50 :=
  c6_scroll_ceiling.2 (fun n => n) (fun _ _ hab => hab)

/-- C7: on a source that strictly grows up to time `T` and then stays at
`N`, with `T` at most 48 so the ceiling does not interfere, the loop stops
at the first poll from iteration 4 on whose count repeats the previous one
-- iteration `max (T+1) 4` -- and the returned entry set has exactly `N`
entries. -/
theorem c7_scroll_stability (obs : ℕ → ℕ) (N T : ℕ)
    (hg : ∀ t, t < T → obs t < obs (t + 1))
    (hs : ∀ t, T ≤ t → obs t = N)
    (hT : T ≤ 48) :
    scrollIterations obs = max (T + 1) 4 + 1 ∧ scroll_and_load_count obs = N := by
  set A := max (T + 1) 4 with hA
  have hAT : T + 1 ≤ A := le_max_left _ _
  have hA4 : 4 ≤ A := le_max_right _ _
  have hA49 : A ≤ 49 := by
    rw [hA]
    exact max_le (by omega) (by omega)
  have hstop : obs A = obs (A - 1) := by
    rw [hs A (by omega), hs (A - 1) (by omega)]
  have hfirst : ∀ t, 4 ≤ t → t < A → obs t ≠ obs (t - 1) := by
    intro t h4 htA
    have htT : t ≤ T := by
      rcases lt_max_iff.mp (hA ▸ htA) with h | h
      · omega
      · omega
    have hlt := hg (t - 1) (by omega)
    rw [Nat.sub_add_cancel (by omega : 1 ≤ t)] at hlt
    exact ne_of_gt hlt
  have hbreak := scrollLoopAux_break obs A hA4 hA49 hstop hfirst A 0 (by omega)
  rw [if_pos rfl] at hbreak
  have hit : scrollIterations obs = A + 1 := hbreak
  refine ⟨hit, ?_⟩
  unfold scroll_and_load_count
  rw [hit, hs (A + 1) (by omega)]

/-- C7 witness: the source `min t 5` grows strictly to 5 entries by poll 5
and then stays; the loop stops after poll 6 (7 polls in all) and returns
exactly 5 entries. -/
theorem c7_witness :
    scrollIterations (fun t => min t 5) = 7
    ∧ scroll_and_load_count (fun t => min t 5) = 5 := by
  have h := c7_scroll_stability (fun t => min t 5) 5 5
    (by
      intro t ht
      show min t 5 < min (t + 1) 5
      omega)
    (by
      intro t ht
      show min t 5 = 5
      omega)
    (by norm_num)
  refine ⟨?_, h.2⟩
  rw [h.1]
  decide

/-! ### Helper lemmas about the filters -/

theorem filterByTHC_ok_mem (t : ℚ) :
    ∀ (rows out : List Row), filterByTHC t rows = Except.ok out →
      ∀ r : Row, r ∈ out ↔ r ∈ rows ∧ ∃ v, r.thc_numeric = some v ∧ t ≤ v := by
  intro rows
  induction rows with
  | nil =>
    intro out h r
    simp only [filterByTHC] at h
    injection h with h1
    simp [← h1]
  | cons r0 rs ih =>
    intro out h r
    simp only [filterByTHC] at h
    cases h0 : r0.thc_numeric with
    | none =>
      rw [h0] at h
      exact absurd h (by simp)
    | some v0 =>
      rw [h0] at h
      cases hrec : filterByTHC t rs with
      | error e =>
        rw [hrec] at h
        exact absurd h (by simp)
      | ok rest =>
        rw [hrec] at h
        injection h with h1
        subst h1
        by_cases hv : t ≤ v0
        · rw [if_pos hv]
          constructor
          · intro hr
            rcases List.mem_cons.mp hr with rfl | hr2
            · exact ⟨List.mem_cons_self r rs, v0, h0, hv⟩
            · obtain ⟨hmem, hex⟩ := (ih rest hrec r).mp hr2
              exact ⟨List.mem_cons_of_mem r0 hmem, hex⟩
          · rintro ⟨hmem, v, hv1, hv2⟩
            rcases List.mem_cons.mp hmem with rfl | hr2
            · exact List.mem_cons_self r rest
            · exact List.mem_cons_of_mem r0 ((ih rest hrec r).mpr ⟨hr2, v, hv1, hv2⟩)
        · rw [if_neg hv]
          constructor
          · intro hr
            obtain ⟨hmem, hex⟩ := (ih rest hrec r).mp hr
            exact ⟨List.mem_cons_of_mem r0 hmem, hex⟩
          · rintro ⟨hmem, v, hv1, hv2⟩
            rcases List.mem_cons.mp hmem with rfl | hr2
            · rw [h0] at hv1
              injection hv1 with hveq
              exact absurd (hveq ▸ hv2) hv
            · exact (ih rest hrec r).mpr ⟨hr2, v, hv1, hv2⟩

theorem filterByTHC_error_of_none (t : ℚ) :
    ∀ rows : List Row, (∃ r ∈ rows, r.thc_numeric = none) →
      filterByTHC t rows = Except.error "TypeError" := by
  intro rows
  induction rows with
  | nil =>
    rintro ⟨r, hr, _⟩
    exact absurd hr (List.not_mem_nil r)
  | cons r0 rs ih =>
    rintro ⟨r, hr, hnone⟩
    simp only [filterByTHC]
    cases h0 : r0.thc_numeric with
    | none => rfl
    | some v0 =>
      rcases List.mem_cons.mp hr with rfl | hr2
      · rw [h0] at hnone
        exact absurd hnone (by simp)
      · rw [ih ⟨r, hr2, hnone⟩]

theorem apply_filters_thc (rows : List Row) (t : ℚ) (ht : ¬t = 0) :
    apply_filters rows (some t) none = filterByTHC t rows := by
  show (match (if t = 0 then Except.ok rows else filterByTHC t rows) with
        | Except.error e => Except.error e
        | Except.ok rows1 => Except.ok rows1) = filterByTHC t rows
  rw [if_neg ht]
  cases filterByTHC t rows <;> rfl

theorem apply_filters_price (rows : List Row) (m : ℚ) (hm : ¬m = 0) :
    apply_filters rows none (some m) = Except.ok (filterByPrice m rows) := by
  show Except.ok (if m = 0 then rows else filterByPrice m rows) = _
  rw [if_neg hm]

theorem apply_filters_some_eq (rows : List Row) (t : ℚ) (maxP : Option ℚ) :
    apply_filters rows (some t) maxP
      = match (if t = 0 then Except.ok rows else filterByTHC t rows) with
        | Except.error e => Except.error e
        | Except.ok rows1 =>
          Except.ok (match maxP with
            | some m => if m = 0 then rows1 else filterByPrice m rows1
            | none => rows1) := rfl

theorem apply_filters_error_of_none_thc (rows : List Row) (t : ℚ) (ht : ¬t = 0)
    (maxP : Option ℚ) (h : ∃ r ∈ rows, r.thc_numeric = none) :
    apply_filters rows (some t) maxP = Except.error "TypeError" := by
  rw [apply_filters_some_eq, if_neg ht, filterByTHC_error_of_none t rows h]

theorem apply_filters_orig_thc (rowsO : List RowO) (t : ℚ) (ht : ¬t = 0) :
    apply_filters_orig rowsO (some t) none
      = rowsO.filter (fun p => decide (t ≤ p.labThc.getD 0)) := by
  show (if t = 0 then rowsO else rowsO.filter (fun p => decide (t ≤ p.labThc.getD 0))) = _
  rw [if_neg ht]

theorem apply_filters_orig_price (rowsO : List RowO) (m : ℚ) (hm : ¬m = 0) :
    apply_filters_orig rowsO none (some m)
      = rowsO.filter (fun p =>
          match p.price with
          | some v => decide (v ≤ m)
          | none => false) := by
  show (if m = 0 then rowsO
        else rowsO.filter (fun p =>
          match p.price with
          | some v => decide (v ≤ m)
          | none => false)) = _
  rw [if_neg hm]

/-- C4: both filter implementations use inclusive boundaries: with
`min_thc = 20` a THC of 19.9 is dropped and a THC of exactly 20.0 is kept
(`>=`), and with `max_price = 50` a price of exactly 50.0 is kept (`<=`). -/
theorem c4_filter_boundaries :
    (∀ (rows out : List Row), apply_filters rows (some 20) none = Except.ok out →
      ∀ r ∈ rows,
        (r.thc_numeric = some (199 / 10) → r ∉ out)
        ∧ (r.thc_numeric = some 20 → r ∈ out))
    ∧ (∀ (rows out : List Row), apply_filters rows none (some 50) = Except.ok out →
        ∀ r ∈ rows, r.price = some 50 → r ∈ out)
    ∧ (∀ rowsO : List RowO, ∀ p ∈ rowsO,
        (p.labThc = some (199 / 10) → p ∉ apply_filters_orig rowsO (some 20) none)
        ∧ (p.labThc = some 20 → p ∈ apply_filters_orig rowsO (some 20) none)
        ∧ (p.price = some 50 → p ∈ apply_filters_orig rowsO none (some 50))) := by
  refine ⟨?_, ?_, ?_⟩
  · intro rows out h r hr
    rw [apply_filters_thc rows 20 (by norm_num)] at h
    constructor
    · intro h199 hmem
      obtain ⟨_, v, hv, hle⟩ := (filterByTHC_ok_mem 20 rows out h r).mp hmem
      rw [h199] at hv
      injection hv with hveq
      rw [← hveq] at hle
      norm_num at hle
    · intro h20
      exact (filterByTHC_ok_mem 20 rows out h r).mpr ⟨hr, 20, h20, le_refl 20⟩
  · intro rows out h r hr hp
    rw [apply_filters_price rows 50 (by norm_num)] at h
    injection h with h1
    rw [← h1]
    refine List.mem_filter.mpr ⟨hr, ?_⟩
    rw [hp]
    decide
  · intro rowsO p hp
    refine ⟨?_, ?_, ?_⟩
    · intro h199 hmem
      rw [apply_filters_orig_thc rowsO 20 (by norm_num)] at hmem
      have hpred := (List.mem_filter.mp hmem).2
      rw [h199] at hpred
      simp only [Option.getD_some, decide_eq_true_eq] at hpred
      norm_num at hpred
    · intro h20
      rw [apply_filters_orig_thc rowsO 20 (by norm_num)]
      refine List.mem_filter.mpr ⟨hp, ?_⟩
      rw [h20]
      decide
    · intro h50
      rw [apply_filters_orig_price rowsO 50 (by norm_num)]
      refine List.mem_filter.mpr ⟨hp, ?_⟩
      rw [h50]
      decide

/-- C4 witness: concrete records at the THC and price boundaries, in both
implementations. -/
theorem c4_witness :
    apply_filters [rowThc199, rowThc20] (some 20) none = Except.ok [rowThc20]
    ∧ rowThc199 ∉ [rowThc20]
    ∧ rowThc20 ∈ [rowThc20]
    ∧ apply_filters [rowPrice50] none (some 50) = Except.ok [rowPrice50]
    ∧ rowPrice50 ∈ [rowPrice50]
    ∧ { labThc := some 20 } ∈ apply_filters_orig [{ labThc := some 20 }] (some 20) none := by
  refine ⟨by decide, ?_, ?_, by decide, ?_, ?_⟩
  · exact (c4_filter_boundaries.1 [rowThc199, rowThc20] [rowThc20] (by decide) rowThc199
      (by decide)).1 (by decide)
  · exact (c4_filter_boundaries.1 [rowThc199, rowThc20] [rowThc20] (by decide) rowThc20
      (by decide)).2 (by decide)
  · exact c4_filter_boundaries.2.1 [rowPrice50] [rowPrice50] (by decide) rowPrice50
      (by decide) (by decide)
  · exact (c4_filter_boundaries.2.2 [{ labThc := some 20 }] { labThc := some 20 }
      (by decide)).2.1 (by decide)

/-- C5 (amended): in the optimized extractor every record carries the
`thc_numeric` key, `None` when the pattern found nothing, so
`p.get("thc_numeric", 0)` returns `None` and the `>=` comparison raises
`TypeError` — the record is not silently treated as 0; only the original
extractor's filter, where the `lab_results.thc` key path itself is missing,
defaults the value to 0 and drops the record without error. -/
theorem c5_missing_thc :
    (∀ t : ℚ, t ≠ 0 → ∀ (rows : List Row) (maxP : Option ℚ),
      (∃ r ∈ rows, r.thc_numeric = none) →
      apply_filters rows (some t) maxP = Except.error "TypeError")
    ∧ (∀ t : ℚ, 0 < t → ∀ rowsO : List RowO, ∀ p ∈ rowsO, p.labThc = none →
        p ∉ apply_filters_orig rowsO (some t) none) := by
  constructor
  · intro t ht rows maxP h
    exact apply_filters_error_of_none_thc rows t ht maxP h
  · intro t ht rowsO p hp hnone hmem
    rw [apply_filters_orig_thc rowsO t (ne_of_gt ht)] at hmem
    have hpred := (List.mem_filter.mp hmem).2
    rw [hnone] at hpred
    simp only [Option.getD_none, decide_eq_true_eq] at hpred
    exact absurd hpred (not_le.mpr ht)

/-- C5 witness: the two filter behaviours at concrete records with missing
THC data. -/
theorem c5_witness :
    apply_filters [rowNoPrice] (some 20) (some 50) = Except.error "TypeError"
    ∧ rowONoThc ∉ apply_filters_orig [rowONoThc] (some 20) none :=
  ⟨c5_missing_thc.1 20 (by norm_num) [rowNoPrice] (some 50) ⟨rowNoPrice, by decide, rfl⟩,
   c5_missing_thc.2 20 (by norm_num) [rowONoThc] rowONoThc (by decide) rfl⟩

/-- C5 counterexample: with `min_thc = 20`, the optimized filter raises
`TypeError` on a record whose THC value is missing instead of treating it
as 0 and excluding it without error, as the claim states. -/
theorem c5_counterexample :
    apply_filters [rowNoPrice] (some 20) none = Except.error "TypeError" := by
  decide

/-! ### Helper lemma about the price scanner -/

theorem priceScan_none (cs : List Char) (h : hasDollarNumber cs = false) :
    priceScan cs = none := by
  induction cs with
  | nil => rfl
  | cons c rest ih =>
    simp only [priceScan, hasDollarNumber] at h ⊢
    by_cases hc : c = '$'
    · rw [if_pos hc] at h ⊢
      cases rest with
      | nil => rfl
      | cons c2 rest2 =>
        rw [Bool.or_eq_false_iff] at h
        obtain ⟨h1, h2⟩ := h
        have h1d : c2.isDigit = false := h1
        have hm : matchNumber (c2 :: rest2) = none := by
          simp [matchNumber, List.takeWhile_cons, h1d]
        rw [hm]
        exact ih h2
    · rw [if_neg hc] at h ⊢
      exact ih h

/-- C10: when the rendered text has no `$<number>` pattern the extractor
creates neither the `price` nor the `price_raw` key, and any record without
a price key fails `p.get("price", inf) <= max_price`, so it is dropped by a
provided price filter. -/
theorem c10_missing_price :
    (∀ text : List Char, hasDollarNumber text = false →
      (extractProductData text).price = none ∧ (extractProductData text).price_raw = none)
    ∧ (∀ m : ℚ, m ≠ 0 → ∀ (rows out : List Row) (r : Row),
        apply_filters rows none (some m) = Except.ok out →
        r.price = none → r ∉ out) := by
  constructor
  · intro text h
    unfold extractProductData
    rw [priceScan_none text h]
    exact ⟨rfl, rfl⟩
  · intro m hm rows out r happ hnone hmem
    rw [apply_filters_price rows m hm] at happ
    injection happ with h1
    rw [← h1] at hmem
    have hpred := (List.mem_filter.mp hmem).2
    rw [hnone] at hpred
    simp at hpred

/-- C10 witness: a concrete text with no dollar pattern yields a record
with no price key, and such a record is dropped by a `max_price = 50`
filter. -/
theorem c10_witness :
    hasDollarNumber "Cool Flower\nBrandX\nTHC: 22.5%".toList = false
    ∧ (extractProductData "Cool Flower\nBrandX\nTHC: 22.5%".toList).price = none
    ∧ apply_filters [rowNoPrice, rowPrice50] none (some 50) = Except.ok [rowPrice50]
    ∧ rowNoPrice ∉ [rowPrice50] := by
  refine ⟨by decide, ?_, by decide, ?_⟩
  · exact (c10_missing_price.1 "Cool Flower\nBrandX\nTHC: 22.5%".toList (by decide)).1
  · exact c10_missing_price.2 50 (by norm_num) [rowNoPrice, rowPrice50] [rowPrice50]
      rowNoPrice (by decide) rfl

/-- C8 (amended): the age-gate XPath accepts a control whose text contains
the exact substring `YES` or `Yes` — the match is case-sensitive on those
two spellings, so a control labelled in lowercase `yes` is NOT matched —
within a 10-unit wait; the handler clicks the first matching control and a
timeout with no match is caught and treated as the no-popup case, not an
error. -/
theorem c8_age_gate :
    buttonMatch "YES" = true
    ∧ buttonMatch "Yes" = true
    ∧ buttonMatch "yes" = false
    ∧ ageGateTimeout = 10
    ∧ handleAgeVerification [] = none
    ∧ (∀ (bs : List String) (s : String),
        handleAgeVerification bs = some s → buttonMatch s = true)
    ∧ (∀ bs : List String, handleAgeVerification bs = none →
        ∀ s ∈ bs, buttonMatch s = false) := by
  refine ⟨by decide, by decide, by decide, rfl, rfl, ?_, ?_⟩
  · intro bs s h
    exact List.find?_some h
  · intro bs h s hs
    simpa using List.find?_eq_none.mp h s hs

/-- C8 witness: the handler clicks the first control containing `Yes` and
the clicked control indeed matches. -/
theorem c8_witness :
    handleAgeVerification ["no", "Yes please"] = some "Yes please"
    ∧ buttonMatch "Yes please" = true :=
  ⟨by decide, c8_age_gate.2.2.2.2.2.1 ["no", "Yes please"] "Yes please" (by decide)⟩

/-- C8 counterexample: a control labelled lowercase `yes` is not matched
and not clicked, contrary to the claim that the match is case-insensitive. -/
theorem c8_counterexample :
    buttonMatch "yes" = false ∧ handleAgeVerification ["yes"] = none := by
  decide

/-- Success-path unfolding of `extract_dispensary`: with the driver set up,
the outcome is determined by the loop result, the `finally` block always
runs and the driver is always quit; the exception (when one escaped the
loop) is propagated unchanged. -/
theorem extract_dispensary_ok (fetch : String → Except PyError (List (Option Row)))
    (cats : Option (List String)) (minT maxP : Option ℚ) (t0 t1 : ℕ)
    (errOpt : Option PyError) (acc : List Row) (st : Stats)
    (hrc : runCats fetch minT maxP (cats.getD defaultCategories) [] (initStats t0)
      = (errOpt, acc, st)) :
    (extract_dispensary (Except.ok ()) fetch cats minT maxP t0 t1).driverQuit = true
    ∧ (extract_dispensary (Except.ok ()) fetch cats minT maxP t0 t1).stats.end_time = some t1
    ∧ (extract_dispensary (Except.ok ()) fetch cats minT maxP t0 t1).stats.total_products
        = acc.length
    ∧ (errOpt = none →
        (extract_dispensary (Except.ok ()) fetch cats minT maxP t0 t1).result = Except.ok acc)
    ∧ (∀ e : PyError, errOpt = some e →
        (extract_dispensary (Except.ok ()) fetch cats minT maxP t0 t1).result
          = Except.error e) := by
  simp only [extract_dispensary, hrc]
  cases errOpt with
  | none =>
    exact ⟨rfl, rfl, rfl, fun _ => rfl, fun e he => Option.noConfusion he⟩
  | some e0 =>
    refine ⟨rfl, rfl, rfl, fun hn => Option.noConfusion hn, fun e he => ?_⟩
    cases Option.some.inj he
    rfl

/-- C9 (amended): when an exception escapes the category loop the `finally`
block quits the driver and finalizes the stats (end instant and total
product count from the partial accumulation), and the ORIGINAL exception is
re-raised unchanged — never swallowed, but also never wrapped in any
`ExtractionError` (no such class exists in the code); the partial stats stay
on the extractor object rather than travelling with the exception; and a
failure of `_setup_driver()`, which runs before the `try`, propagates with
the stats not finalized and no driver to quit. -/
theorem c9_error_propagation :
    (∀ (fetch : String → Except PyError (List (Option Row)))
       (cats : Option (List String)) (minT maxP : Option ℚ) (t0 t1 : ℕ),
      (extract_dispensary (Except.ok ()) fetch cats minT maxP t0 t1).driverQuit = true
      ∧ (extract_dispensary (Except.ok ()) fetch cats minT maxP t0 t1).stats.end_time = some t1
      ∧ (extract_dispensary (Except.ok ()) fetch cats minT maxP t0 t1).stats.total_products
          = (runCats fetch minT maxP (cats.getD defaultCategories) [] (initStats t0)).2.1.length
      ∧ (∀ e : PyError,
          (runCats fetch minT maxP (cats.getD defaultCategories) [] (initStats t0)).1 = some e →
          (extract_dispensary (Except.ok ()) fetch cats minT maxP t0 t1).result
            = Except.error e))
    ∧ (∀ (e : PyError) (fetch : String → Except PyError (List (Option Row)))
         (cats : Option (List String)) (minT maxP : Option ℚ) (t0 t1 : ℕ),
        extract_dispensary (Except.error e) fetch cats minT maxP t0 t1
          = { result := Except.error e, stats := initStats t0, driverQuit := false }) := by
  constructor
  · intro fetch cats minT maxP t0 t1
    rcases hrc : runCats fetch minT maxP (cats.getD defaultCategories) [] (initStats t0)
      with ⟨errOpt, acc, st⟩
    obtain ⟨hq, hend, htot, _, herr⟩ :=
      extract_dispensary_ok fetch cats minT maxP t0 t1 errOpt acc st hrc
    refine ⟨hq, hend, ?_, ?_⟩
    · exact htot
    · intro e he
      exact herr e he
  · intro e fetch cats minT maxP t0 t1
    rfl

/-- C9 witness: a run whose second category fetch raises a timeout quits
the driver, finalizes the stats with the one product collected from the
first category, and re-raises the timeout itself. -/
theorem c9_witness :
    (runCats fetchW none none ["flower", "edibles"] [] (initStats 0)).1
        = some { ty := "TimeoutException", msg := "page timeout" }
    ∧ (extract_dispensary (Except.ok ()) fetchW (some ["flower", "edibles"]) none none 0 1).result
        = Except.error { ty := "TimeoutException", msg := "page timeout" }
    ∧ (extract_dispensary (Except.ok ()) fetchW (some ["flower", "edibles"]) none none 0 1).driverQuit
        = true
    ∧ (extract_dispensary (Except.ok ()) fetchW (some ["flower", "edibles"]) none none 0 1).stats.end_time
        = some 1 := by
  refine ⟨by decide, ?_, ?_, ?_⟩
  · exact (c9_error_propagation.1 fetchW (some ["flower", "edibles"]) none none 0 1).2.2.2
      { ty := "TimeoutException", msg := "page timeout" } (by decide)
  · exact (c9_error_propagation.1 fetchW (some ["flower", "edibles"]) none none 0 1).1
  · exact (c9_error_propagation.1 fetchW (some ["flower", "edibles"]) none none 0 1).2.1

/-- C9 counterexample: a session-open failure propagates as the original
`WebDriverException` — not as any `ExtractionError` — and on that exit path
the stats are NOT finalized (no end instant) and no driver is quit, contrary
to the claim. -/
theorem c9_counterexample :
    (extract_dispensary (Except.error setupFailErr) fetchW none none none 0 1).result
        = Except.error setupFailErr
    ∧ setupFailErr.ty ≠ "ExtractionError"
    ∧ (extract_dispensary (Except.error setupFailErr) fetchW none none none 0 1).stats.end_time
        = none
    ∧ (extract_dispensary (Except.error setupFailErr) fetchW none none none 0 1).driverQuit
        = false := by
  decide

end Dutchie
